import Mathlib

/-!
Verification development for the vboot verified-boot trust chain.

The repository's `src/firmware/linktest/main.c` only declares and links the
firmware entry points (`LoadKernel`, `GptNextKernelEntry`, `RollbackKernelWrite`,
`KeyBlockVerify`, `VerifyKernelPreamble`, `VbNvSetup`, ...); their
implementations are not under `src/`. Those components are therefore modelled
from the specification (each such definition says so in its doc comment). The
`futility` command dispatcher (`src/futility/futility.c`) is present in full
and is embedded from the source.
-/

/-! ## Rollback Protection (spec §4.3) -/

/-- Errors of the Rollback Protection layer, per spec §4.3 and §7. -/
inductive RbError where
  | RollbackViolation
  | Locked
  | ModuleUnavailable
  | ModuleCorrupt
  deriving DecidableEq, Repr

/-- Modelled from the spec: `RollbackState` = {stored minimum version, secure
minimum version, lock flags}, persisted in the security module's counters.
The C struct behind `RollbackKernelRead`/`Write`/`Lock` is not under `src/`. -/
structure RollbackState where
  stored_minimum : Nat
  secure_minimum : Nat
  locked : Bool
  deriving DecidableEq, Repr

/-- Status of the security module as seen by one counter access. -/
inductive ModuleStatus where
  | Ok
  | Timeout
  | Corrupt
  deriving DecidableEq, Repr

/-- The security module: its health plus the persisted rollback counters. -/
structure SecurityModule where
  status : ModuleStatus
  state : RollbackState
  deriving DecidableEq, Repr

/-- Modelled from the spec: `RollbackKernelRead` (declared in
`src/firmware/linktest/main.c`, implementation absent). `read() ->
RollbackState | Error(ModuleUnavailable | ModuleCorrupt)`; a timeout on the
module is treated as `ModuleUnavailable` (spec §5). -/
def RollbackKernelRead (m : SecurityModule) : Except RbError RollbackState :=
  match m.status with
  | ModuleStatus.Ok => Except.ok m.state
  | ModuleStatus.Timeout => Except.error RbError.ModuleUnavailable
  | ModuleStatus.Corrupt => Except.error RbError.ModuleCorrupt

/-- Modelled from the spec: `RollbackKernelWrite` (declared in
`src/firmware/linktest/main.c`, implementation absent). `write(new_stored_version)`
fails with `Error(RollbackViolation)` if `new_stored_version < secure_minimum`,
and with `Error(Locked)` after `lockForBoot`. -/
def RollbackKernelWrite (st : RollbackState) (v : Nat) : Except RbError RollbackState :=
  if st.locked then Except.error RbError.Locked
  else if v < st.secure_minimum then Except.error RbError.RollbackViolation
  else Except.ok { st with stored_minimum := v }

/-- Modelled from the spec: `RollbackKernelLock` (declared in
`src/firmware/linktest/main.c`, implementation absent). Idempotent; after it,
writes fail with `Error(Locked)` until next boot. -/
def RollbackKernelLock (st : RollbackState) : RollbackState :=
  { st with locked := true }

/-- The operations performed on the rollback state across boots, per spec §4.4:
reads, the boot-time lock, and the Selector's accept-new-version step. The
accept step carries the accepted kernel's version and whether that kernel has
previously reported a successful prior boot (two-boot confirmation). -/
inductive RbOp where
  | read
  | lockForBoot
  | acceptNewVersion (v : Nat) (confirmedPriorBoot : Bool)
  deriving DecidableEq, Repr

/-- Modelled from the spec: the Selector's accept-new-version step (§4.4):
on `Accepted` it may raise the stored rollback minimum to the accepted
kernel's version, but only after a confirmed successful prior boot. -/
def acceptNewVersion (st : RollbackState) (v : Nat) (confirmed : Bool) : RollbackState :=
  if confirmed = true ∧ st.stored_minimum < v then
    match RollbackKernelWrite st v with
    | Except.ok st2 => st2
    | Except.error _ => st
  else st

/-- One transition of the rollback state. -/
def rbStep (st : RollbackState) : RbOp → RollbackState
  | RbOp.read => st
  | RbOp.lockForBoot => RollbackKernelLock st
  | RbOp.acceptNewVersion v confirmed => acceptNewVersion st v confirmed

/-! ## NV Storage Codec (spec §4.1 data model, §6 NV record blob) -/

/-- Modelled from the spec: `NvRecord` = {boot result flags, recovery reason,
kernel field bits}; serialized with a checksum byte. The C code behind
`VbNvSetup`/`VbNvGet`/`VbNvSet` is declared in `src/firmware/linktest/main.c`
but not implemented under `src/`. -/
structure NvRecord where
  boot_result_flags : Nat
  recovery_reason : Nat
  kernel_field : Nat
  deriving DecidableEq, Repr

/-- Default/safe values forced when the checksum is invalid. -/
def nvDefault : NvRecord := ⟨0, 0, 0⟩

/-- Byte-wise well-formedness: each field fits in one byte of the blob. -/
def nvWf (r : NvRecord) : Prop :=
  r.boot_result_flags < 256 ∧ r.recovery_reason < 256 ∧ r.kernel_field < 256

instance (r : NvRecord) : Decidable (nvWf r) := by
  unfold nvWf
  infer_instance

/-- Checksum over the three payload bytes. -/
def nvChecksum (f rr k : Nat) : Nat := (f + rr + k) % 256

/-- Modelled from the spec: serialize an `NvRecord` into the fixed-size blob
{boot flags, recovery reason, kernel field, checksum}. -/
def nvEncode (r : NvRecord) : List Nat :=
  [r.boot_result_flags, r.recovery_reason, r.kernel_field,
   nvChecksum r.boot_result_flags r.recovery_reason r.kernel_field]

/-- Modelled from the spec: deserialize a blob; checksum invalidation (or any
malformed blob) forces default/safe values, never a failure. -/
def nvDecode (blob : List Nat) : NvRecord :=
  match blob with
  | [f, rr, k, c] =>
      if f < 256 ∧ rr < 256 ∧ k < 256 ∧ c = nvChecksum f rr k then ⟨f, rr, k⟩
      else nvDefault
  | _ => nvDefault

/-! ## Claim C2 -/

/-- C2: for every pair (new version, secure minimum), `RollbackKernelWrite`
fails with `RollbackViolation` exactly when the new version is below the
secure minimum (in the unlocked state where writes are attempted), and a
write of exactly the secure minimum succeeds. -/
theorem rollbackWrite_violation_iff (st : RollbackState) (v : Nat)
    (h : st.locked = false) :
    (RollbackKernelWrite st v = Except.error RbError.RollbackViolation ↔
      v < st.secure_minimum) ∧
    (v = st.secure_minimum →
      RollbackKernelWrite st v = Except.ok { st with stored_minimum := v }) := by
  constructor
  · constructor
    · intro hw
      by_contra hv
      simp [RollbackKernelWrite, h, hv] at hw
    · intro hv
      simp [RollbackKernelWrite, h, hv]
  · intro hv
    subst hv
    simp [RollbackKernelWrite, h]

/-- Witness for C2 at a concrete state: secure minimum 3, write of 2 is a
rollback violation and write of 3 succeeds. -/
theorem rollbackWrite_violation_iff_witness :
    (RollbackKernelWrite ⟨7, 3, false⟩ 2 = Except.error RbError.RollbackViolation ↔
      (2 : Nat) < 3) ∧
    ((3 : Nat) = 3 →
      RollbackKernelWrite ⟨7, 3, false⟩ 3 = Except.ok ⟨3, 3, false⟩) :=
  rollbackWrite_violation_iff ⟨7, 3, false⟩ 2 rfl |>.imp id
    (fun _ _ => (rollbackWrite_violation_iff ⟨7, 3, false⟩ 3 rfl).2 rfl)

/-! ## Claim C5 -/

/-- Case analysis of the accept-new-version step: either the stored minimum
is untouched, or the step was confirmed and raised it to the new version. -/
lemma acceptNewVersion_stored (s : RollbackState) (v : Nat) (c : Bool) :
    (acceptNewVersion s v c).stored_minimum = s.stored_minimum ∨
    (c = true ∧ s.stored_minimum < v ∧
      (acceptNewVersion s v c).stored_minimum = v) := by
  unfold acceptNewVersion RollbackKernelWrite
  by_cases hc : c = true ∧ s.stored_minimum < v
  · by_cases hl : s.locked = true
    · left
      simp [hc, hl]
    · by_cases hv : v < s.secure_minimum
      · left
        simp [hc, hl, hv]
      · right
        exact ⟨hc.1, hc.2, by simp [hc, hl, hv]⟩
  · left
    simp [hc]

lemma rbStep_stored_le (s : RollbackState) (op : RbOp) :
    s.stored_minimum ≤ (rbStep s op).stored_minimum := by
  cases op with
  | read => exact Nat.le_refl _
  | lockForBoot => exact Nat.le_refl _
  | acceptNewVersion v confirmed =>
      rcases acceptNewVersion_stored s v confirmed with h | ⟨_, hlt, hv⟩
      · exact Nat.le_of_eq (by simpa [rbStep] using h.symm)
      · calc s.stored_minimum ≤ v := Nat.le_of_lt hlt
          _ = (rbStep s (RbOp.acceptNewVersion v confirmed)).stored_minimum := by
              simpa [rbStep] using hv.symm

/-- C5: across any sequence of rollback operations the stored minimum version
never decreases, and a single step changes it only when it is the Selector's
accept-new-version op with a confirmed prior boot, raising it to the accepted
kernel's version. -/
theorem storedMinimum_monotone (st : RollbackState) :
    (∀ ops : List RbOp,
      st.stored_minimum ≤ (List.foldl rbStep st ops).stored_minimum) ∧
    (∀ op : RbOp, (rbStep st op).stored_minimum ≠ st.stored_minimum →
      ∃ v, op = RbOp.acceptNewVersion v true ∧ st.stored_minimum < v ∧
        (rbStep st op).stored_minimum = v) := by
  constructor
  · intro ops
    induction ops generalizing st with
    | nil => exact Nat.le_refl _
    | cons op rest ih =>
        exact Nat.le_trans (rbStep_stored_le st op) (ih (rbStep st op))
  · intro op hne
    cases op with
    | read => exact absurd rfl hne
    | lockForBoot => exact absurd rfl hne
    | acceptNewVersion v confirmed =>
        rcases acceptNewVersion_stored st v confirmed with h | ⟨hc, hlt, hv⟩
        · exact absurd (by simpa [rbStep] using h) hne
        · exact ⟨v, by rw [hc], hlt, by simpa [rbStep] using hv⟩

/-- Witness for C5: a concrete op sequence (read, lock, a refused unconfirmed
accept, then a confirmed accept of version 9) keeps the stored minimum ≥ 4. -/
theorem storedMinimum_monotone_witness :
    (4 : Nat) ≤ (List.foldl rbStep ⟨4, 2, false⟩
      [RbOp.read, RbOp.acceptNewVersion 9 false,
       RbOp.acceptNewVersion 9 true]).stored_minimum :=
  (storedMinimum_monotone ⟨4, 2, false⟩).1
    [RbOp.read, RbOp.acceptNewVersion 9 false, RbOp.acceptNewVersion 9 true]

/-! ## Claim C6 -/

/-- C6: decoding an encoded `NvRecord` restores the original fields, and a
blob whose checksum byte was corrupted decodes to the default/safe values
(the decoder is total, so the caller never sees a failure). -/
theorem nvRecord_roundtrip (r : NvRecord) (h : nvWf r) :
    nvDecode (nvEncode r) = r ∧
    (∀ c, c ≠ nvChecksum r.boot_result_flags r.recovery_reason r.kernel_field →
      nvDecode [r.boot_result_flags, r.recovery_reason, r.kernel_field, c] =
        nvDefault) := by
  obtain ⟨h1, h2, h3⟩ := h
  constructor
  · simp [nvEncode, nvDecode, h1, h2, h3]
  · intro c hc
    simp [nvDecode, h1, h2, h3, hc]

/-- Witness for C6 at a concrete record: round trip restores ⟨1, 2, 3⟩ and a
corrupted checksum byte (0 instead of 6) decodes to the defaults. -/
theorem nvRecord_roundtrip_witness :
    nvDecode (nvEncode ⟨1, 2, 3⟩) = (⟨1, 2, 3⟩ : NvRecord) ∧
    nvDecode [1, 2, 3, 0] = nvDefault := by
  have h := nvRecord_roundtrip ⟨1, 2, 3⟩ (by decide)
  exact ⟨h.1, h.2 0 (by decide)⟩

/-! ## The futility command dispatcher (src/futility/futility.c) -/

/-- MYNAME in futility.c. -/
def futilityMyName : List Char := "futility".data

/-- SUBDIR in futility.c: the directory of legacy binaries. -/
def futilitySubdir : List Char := "old_bins".data

/-- The `progname = strrchr(argv[0], '/'); progname ? progname+1 : argv[0]`
idiom of futility.c `main`: the part of the string after the last slash. -/
def basenameOf (s : List Char) : List Char :=
  s.foldl (fun acc c => if c = '/' then [] else acc ++ [c]) []

/-- Split a path at its last slash: `some (dir, rest)` when a slash exists
(`strrchr` found one), `none` otherwise. Used by futility.c `main` to turn
the readlink result into the true directory. -/
def splitLastSlash : List Char → Option (List Char × List Char)
  | [] => none
  | c :: cs =>
      match splitLastSlash cs with
      | some (pre, post) => some (c :: pre, post)
      | none => if c = '/' then some ([], cs) else none

/-- One built-in futility command: a table entry of `futil_cmds`, holding the
command name and its handler (which receives argv and returns the exit
status). -/
structure FutilCmd where
  name : List Char
  handler : List (List Char) → Nat

/-- The `futil_cmds_start()`..`futil_cmds_end()` scan at futility.c:217-219:
the first table entry whose name equals the resolved program name. -/
def lookupCmd (cmds : List FutilCmd) (n : List Char) : Option FutilCmd :=
  cmds.find? (fun c => c.name = n)

/-- The observable dispatch outcome of futility.c `main`. -/
inductive FutilOutcome where
  | usageError
  | builtin (name : List Char) (argv : List (List Char)) (exitStatus : Nat)
  | execLegacy (path : List Char) (argv : List (List Char))
  | lostError

/-- Name resolution of futility.c `main` lines 190-214: basename of argv[0];
when that is "futility", require a further argument (else the usage error at
lines 199-202), consume exactly one leading argument, and resolve again on
the new argv[0]. Returns the resolved name and the argv the dispatched
handler or exec'd binary will see. -/
def resolveInvocation : List (List Char) →
    Option (List Char × List (List Char))
  | [] => none
  | a0 :: rest =>
      if basenameOf a0 = futilityMyName then
        match rest with
        | [] => none
        | a1 :: _ => some (basenameOf a1, rest)
      else some (basenameOf a0, a0 :: rest)

/-- Dispatch of futility.c `main` lines 216-249: a built-in command's handler
runs and its return value is the exit status; otherwise the legacy binary
`<dir of /proc/self/exe>/old_bins/<progname>` is exec'd with the resolved
argv. `selfExe` is the readlink("/proc/<pid>/exe") result (`none` when it
fails, the "is lost" exit at lines 227-231; a result with no slash is the
"doesn't make sense" exit at lines 236-239). -/
def futilityDispatchCore (cmds : List FutilCmd) (selfExe : Option (List Char))
    (pn : List Char) (args : List (List Char)) : FutilOutcome :=
  match lookupCmd cmds pn with
  | some cmd => FutilOutcome.builtin cmd.name args (cmd.handler args)
  | none =>
      match selfExe with
      | none => FutilOutcome.lostError
      | some te =>
          match splitLastSlash te with
          | none => FutilOutcome.lostError
          | some (dir, _) =>
              FutilOutcome.execLegacy
                (dir ++ ('/' :: futilitySubdir) ++ ('/' :: pn)) args

/-- The dispatch of futility.c `main`: resolve the name, then dispatch. -/
def futilityDispatch (cmds : List FutilCmd) (selfExe : Option (List Char))
    (argv : List (List Char)) : FutilOutcome :=
  match resolveInvocation argv with
  | none => FutilOutcome.usageError
  | some (pn, args) => futilityDispatchCore cmds selfExe pn args

/-- Ambient state the logging code depends on: whether /tmp/futility.log can
be opened (log_open lines 124-135), whether the write lock can be taken
(lines 141-149), and the readlink result for the parent process (lines
154-167). -/
structure LogEnv where
  canOpen : Bool
  canLock : Bool
  caller : Option (List Char)

/-- The log-file state: whether log_fd is a valid descriptor (log_fd >= 0)
and the lines appended so far. -/
structure LogSys where
  fdOpen : Bool
  lines : List (List Char)

/-- log_str's substitution at futility.c lines 85-92: an empty string is
logged as "(EMPTY)". (A NULL pointer, logged as "(NULL)", has no
counterpart for Lean strings.) -/
def logStrLine (s : List Char) : List Char :=
  if s = [] then "(EMPTY)".data else s

/-- log_str (futility.c lines 78-101): writes the string and a newline to
log_fd; a closed fd (log_fd < 0) makes it a no-op. -/
def log_str (ls : LogSys) (s : List Char) : LogSys :=
  if ls.fdOpen then { ls with lines := ls.lines ++ [logStrLine s] } else ls

/-- log_close (futility.c lines 103-117): unlock and close, leaving
log_fd = -1. -/
def log_close (ls : LogSys) : LogSys :=
  { ls with fdOpen := false }

/-- log_open (futility.c lines 119-168): open and lock /tmp/futility.log; on
open failure return with log_fd still -1, on lock failure log_close; on
success write the "##### HEY #####" delimiter and, when the parent's
binary can be read, a CALLER line. -/
def log_open (env : LogEnv) (ls : LogSys) : LogSys :=
  if env.canOpen then
    if env.canLock then
      let ls1 := log_str { ls with fdOpen := true } ("##### HEY #####".data)
      match env.caller with
      | some c => log_str ls1 ("CALLER:".data ++ c)
      | none => ls1
    else log_close { ls with fdOpen := false }
  else { ls with fdOpen := false }

/-- The logging prologue of futility.c `main` lines 185-188: log_open, one
log_str per argv entry, log_close. -/
def futilityLogPhase (env : LogEnv) (argv : List (List Char)) : LogSys :=
  log_close (argv.foldl log_str (log_open env ⟨false, []⟩))

/-- futility.c `main`: the logging prologue followed by name resolution and
dispatch; the log state never feeds into the dispatch. -/
def futilityMain (cmds : List FutilCmd) (selfExe : Option (List Char))
    (env : LogEnv) (argv : List (List Char)) : LogSys × FutilOutcome :=
  (futilityLogPhase env argv, futilityDispatch cmds selfExe argv)

/-- The lines log_open itself writes on success: the delimiter and, when the
parent executable is readable, the CALLER line. -/
def logHeaderLines (env : LogEnv) : List (List Char) :=
  ("##### HEY #####".data) ::
    (match env.caller with
     | some c => ["CALLER:".data ++ c]
     | none => [])

lemma log_str_foldl (argv : List (List Char)) (acc : List (List Char)) :
    argv.foldl log_str ⟨true, acc⟩ = ⟨true, acc ++ argv.map logStrLine⟩ := by
  induction argv generalizing acc with
  | nil => simp
  | cons a t ih =>
      simp only [List.foldl_cons, List.map_cons]
      rw [show log_str ⟨true, acc⟩ a = ⟨true, acc ++ [logStrLine a]⟩ from rfl, ih]
      simp

lemma log_open_success (env : LogEnv) (hopen : env.canOpen = true)
    (hlock : env.canLock = true) :
    log_open env ⟨false, []⟩ = ⟨true, logHeaderLines env⟩ := by
  cases henv : env.caller with
  | none => simp [log_open, hopen, hlock, henv, log_str, logStrLine, logHeaderLines]
  | some c =>
      simp [log_open, hopen, hlock, henv, log_str, logStrLine, logHeaderLines]

lemma futilityDispatchCore_builtin (cmds : List FutilCmd)
    (selfExe : Option (List Char)) (pn : List Char) (args : List (List Char))
    (cmd : FutilCmd) (hcmd : lookupCmd cmds pn = some cmd) :
    futilityDispatchCore cmds selfExe pn args =
      FutilOutcome.builtin cmd.name args (cmd.handler args) := by
  unfold futilityDispatchCore
  rw [hcmd]

lemma futilityDispatchCore_lost (cmds : List FutilCmd) (pn : List Char)
    (args : List (List Char)) (hcmd : lookupCmd cmds pn = none) :
    futilityDispatchCore cmds none pn args = FutilOutcome.lostError := by
  unfold futilityDispatchCore
  rw [hcmd]

lemma futilityDispatchCore_noSlash (cmds : List FutilCmd) (pn : List Char)
    (args : List (List Char)) (te : List Char)
    (hcmd : lookupCmd cmds pn = none) (hsp : splitLastSlash te = none) :
    futilityDispatchCore cmds (some te) pn args = FutilOutcome.lostError := by
  unfold futilityDispatchCore
  rw [hcmd]
  show (match splitLastSlash te with
        | none => FutilOutcome.lostError
        | some (dir, _) =>
            FutilOutcome.execLegacy
              (dir ++ ('/' :: futilitySubdir) ++ ('/' :: pn)) args) =
      FutilOutcome.lostError
  rw [hsp]

lemma futilityDispatchCore_exec (cmds : List FutilCmd) (pn : List Char)
    (args : List (List Char)) (te dir b : List Char)
    (hcmd : lookupCmd cmds pn = none) (hsp : splitLastSlash te = some (dir, b)) :
    futilityDispatchCore cmds (some te) pn args =
      FutilOutcome.execLegacy
        (dir ++ ('/' :: futilitySubdir) ++ ('/' :: pn)) args := by
  unfold futilityDispatchCore
  rw [hcmd]
  show (match splitLastSlash te with
        | none => FutilOutcome.lostError
        | some (dir, _) =>
            FutilOutcome.execLegacy
              (dir ++ ('/' :: futilitySubdir) ++ ('/' :: pn)) args) =
      FutilOutcome.execLegacy
        (dir ++ ('/' :: futilitySubdir) ++ ('/' :: pn)) args
  rw [hsp]

/-! ## Claim C8 -/

/-- C8: once the invoked name is resolved, a matching built-in command's
handler runs on the forwarded argv and its return value is the exit status;
a non-matching name is exec'd as `<dir of the futility executable>/old_bins/<name>`
with the forwarded argv; and the logging prologue appended every invoked
argument to the log file before dispatching. -/
theorem futility_dispatch_spec (cmds : List FutilCmd)
    (selfExe : Option (List Char)) (env : LogEnv) (argv : List (List Char))
    (pn : List Char) (args : List (List Char))
    (hr : resolveInvocation argv = some (pn, args))
    (hopen : env.canOpen = true) (hlock : env.canLock = true) :
    ((futilityMain cmds selfExe env argv).1.lines =
      logHeaderLines env ++ argv.map logStrLine) ∧
    (∀ cmd, lookupCmd cmds pn = some cmd →
      (futilityMain cmds selfExe env argv).2 =
        FutilOutcome.builtin cmd.name args (cmd.handler args)) ∧
    (∀ te dir b, lookupCmd cmds pn = none → selfExe = some te →
      splitLastSlash te = some (dir, b) →
      (futilityMain cmds selfExe env argv).2 =
        FutilOutcome.execLegacy (dir ++ ('/' :: futilitySubdir) ++ ('/' :: pn))
          args) := by
  refine ⟨?_, ?_, ?_⟩
  · show (futilityLogPhase env argv).lines = _
    unfold futilityLogPhase
    rw [log_open_success env hopen hlock, log_str_foldl]
    rfl
  · intro cmd hcmd
    show futilityDispatch cmds selfExe argv = _
    unfold futilityDispatch
    rw [hr]
    show futilityDispatchCore cmds selfExe pn args = _
    unfold futilityDispatchCore
    rw [hcmd]
  · intro te dir b hcmd hse hsplit
    show futilityDispatch cmds selfExe argv = _
    unfold futilityDispatch
    rw [hr]
    show futilityDispatchCore cmds selfExe pn args = _
    rw [hse]
    exact futilityDispatchCore_exec cmds pn args te dir b hcmd hsplit

/-- Witness for C8: invoked as `help` (a built-in whose handler returns the
argv length), the dispatcher runs the handler with the one-element argv and
reports its return value 1, after logging the argument. -/
theorem futility_dispatch_spec_witness :
    ((futilityMain [FutilCmd.mk ("help".data) (fun a => a.length)] none
        ⟨true, true, none⟩ [("help".data)]).1.lines =
      logHeaderLines ⟨true, true, none⟩ ++ [("help".data)]) ∧
    ((futilityMain [FutilCmd.mk ("help".data) (fun a => a.length)] none
        ⟨true, true, none⟩ [("help".data)]).2 =
      FutilOutcome.builtin ("help".data) [("help".data)] 1) := by
  have h := futility_dispatch_spec
    [FutilCmd.mk ("help".data) (fun a => a.length)] none ⟨true, true, none⟩
    [("help".data)] ("help".data) [("help".data)] rfl rfl rfl
  exact ⟨h.1, h.2.1 (FutilCmd.mk ("help".data) (fun a => a.length)) rfl⟩

/-! ## Claim C9 -/

/-- C9: the dispatch outcome is independent of the log file's state — two
runs differing only in the logging environment dispatch identically — and
every logging failure leaves the descriptor closed, which makes log_str a
no-op. -/
theorem dispatch_independent_of_log :
    (∀ (cmds : List FutilCmd) (selfExe : Option (List Char))
        (argv : List (List Char)) (env1 env2 : LogEnv),
      (futilityMain cmds selfExe env1 argv).2 =
        (futilityMain cmds selfExe env2 argv).2) ∧
    (∀ env : LogEnv, env.canOpen = false ∨ env.canLock = false →
      (log_open env ⟨false, []⟩).fdOpen = false) ∧
    (∀ (ls : LogSys) (s : List Char), ls.fdOpen = false → log_str ls s = ls) := by
  refine ⟨fun _ _ _ _ _ => rfl, ?_, ?_⟩
  · intro env henv
    rcases henv with h | h
    · simp [log_open, h]
    · cases hOpen : env.canOpen with
      | false => simp [log_open, hOpen]
      | true => simp [log_open, hOpen, h, log_close]
  · intro ls s hfd
    simp [log_str, hfd]

/-- Witness for C9: a run with logging unavailable and a run with logging
available dispatch to the same outcome. -/
theorem dispatch_independent_of_log_witness :
    (futilityMain [] none ⟨false, false, none⟩ [("futility".data)]).2 =
      (futilityMain [] none ⟨true, true, none⟩ [("futility".data)]).2 :=
  dispatch_independent_of_log.1 [] none [("futility".data)]
    ⟨false, false, none⟩ ⟨true, true, none⟩

/-! ## Claim C10 -/

/-- C10: invoked directly under the name "futility" with no further argument,
the dispatcher reports the usage error (usage text on stderr, exit status 1)
and dispatches nothing; with at least one argument, exactly one leading
argument is consumed before name resolution, and whatever is dispatched —
built-in handler or exec'd binary — sees the remaining arguments unchanged. -/
theorem futility_direct_invocation (cmds : List FutilCmd)
    (selfExe : Option (List Char)) (a0 : List Char) (rest : List (List Char))
    (h : basenameOf a0 = futilityMyName) :
    (rest = [] →
      futilityDispatch cmds selfExe (a0 :: rest) = FutilOutcome.usageError) ∧
    (∀ a1 t, rest = a1 :: t →
      resolveInvocation (a0 :: rest) = some (basenameOf a1, a1 :: t) ∧
      (∀ n args e,
        futilityDispatch cmds selfExe (a0 :: rest) =
          FutilOutcome.builtin n args e → args = a1 :: t) ∧
      (∀ p args,
        futilityDispatch cmds selfExe (a0 :: rest) =
          FutilOutcome.execLegacy p args → args = a1 :: t)) := by
  constructor
  · intro hrest
    subst hrest
    have hres : resolveInvocation [a0] = none := by
      simp [resolveInvocation, h]
    unfold futilityDispatch
    rw [hres]
  · intro a1 t hrest
    subst hrest
    have hres : resolveInvocation (a0 :: a1 :: t) = some (basenameOf a1, a1 :: t) := by
      simp [resolveInvocation, h]
    have hdisp : futilityDispatch cmds selfExe (a0 :: a1 :: t) =
        futilityDispatchCore cmds selfExe (basenameOf a1) (a1 :: t) := by
      unfold futilityDispatch
      rw [hres]
    refine ⟨hres, ?_, ?_⟩
    · intro n args e hd
      rw [hdisp] at hd
      cases hcmd : lookupCmd cmds (basenameOf a1) with
      | some cmd =>
          rw [futilityDispatchCore_builtin cmds selfExe _ _ cmd hcmd] at hd
          injection hd with h1 h2 h3
          exact h2.symm
      | none =>
          cases hse : selfExe with
          | none =>
              rw [hse, futilityDispatchCore_lost cmds _ _ hcmd] at hd
              exact FutilOutcome.noConfusion hd
          | some te =>
              cases hsp : splitLastSlash te with
              | none =>
                  rw [hse, futilityDispatchCore_noSlash cmds _ _ te hcmd hsp] at hd
                  exact FutilOutcome.noConfusion hd
              | some pr =>
                  rw [hse, futilityDispatchCore_exec cmds _ _ te pr.1 pr.2 hcmd
                    (by rw [hsp])] at hd
                  exact FutilOutcome.noConfusion hd
    · intro p args hd
      rw [hdisp] at hd
      cases hcmd : lookupCmd cmds (basenameOf a1) with
      | some cmd =>
          rw [futilityDispatchCore_builtin cmds selfExe _ _ cmd hcmd] at hd
          exact FutilOutcome.noConfusion hd
      | none =>
          cases hse : selfExe with
          | none =>
              rw [hse, futilityDispatchCore_lost cmds _ _ hcmd] at hd
              exact FutilOutcome.noConfusion hd
          | some te =>
              cases hsp : splitLastSlash te with
              | none =>
                  rw [hse, futilityDispatchCore_noSlash cmds _ _ te hcmd hsp] at hd
                  exact FutilOutcome.noConfusion hd
              | some pr =>
                  rw [hse, futilityDispatchCore_exec cmds _ _ te pr.1 pr.2 hcmd
                    (by rw [hsp])] at hd
                  injection hd with h1 h2
                  exact h2.symm

/-- Witness for C10: `futility` invoked with no argument yields the usage
error. -/
theorem futility_direct_invocation_witness :
    futilityDispatch [] none [("futility".data)] = FutilOutcome.usageError :=
  (futility_direct_invocation [] none ("futility".data) [] rfl).1 rfl

/-! ## Cryptographic Verification Pipeline (spec §4.2) -/

/-- Modelled from the spec: `PublicKey` = {modulus, exponent encoding,
algorithm id, key version} (spec §3). The parsing/verification code behind
`PublicKeyInit`/`KeyBlockVerify`/`VerifyKernelPreamble` is declared in
`src/firmware/linktest/main.c` but not implemented under `src/`. The modulus
is represented by its length, which stage 1 checks against the algorithm. -/
structure PublicKey where
  algorithm : Nat
  modulus_len : Nat
  exponent_encoding_valid : Bool
  key_version : Nat
  deriving DecidableEq, Repr

/-- Number of recognized signature algorithm ids (stage 1 sanity check). -/
def numAlgorithms : Nat := 3

/-- Modulus length required by each recognized algorithm. -/
def expectedModulusLen (alg : Nat) : Nat := 128 * 2 ^ alg

/-- Modelled from the spec: `KeyBlock` = {embedded PublicKey for the next
stage, signature over itself, declared key version, flags} (spec §3). The
signed content is abstracted as a `payload` value; which signatures are
valid is supplied by the caller as a relation (`sigOk` below). -/
structure KeyBlock where
  data_key : PublicKey
  key_version : Nat
  flags : Nat
  payload : Nat
  signature : Nat
  deriving DecidableEq, Repr

/-- Modelled from the spec: `Preamble` = {kernel body size, body load
address, signed body hash, signature over itself, declared kernel version}
(spec §3). -/
structure Preamble where
  body_size : Nat
  load_address : Nat
  body_hash : Nat
  kernel_version : Nat
  payload : Nat
  signature : Nat
  deriving DecidableEq, Repr

/-- The error taxonomy of the four pipeline stages (spec §4.2). -/
inductive VerifyError where
  | InvalidKeyFormat
  | BadSignature
  | KeyVersionRollback
  | KernelVersionRollback
  | SizeMismatch
  | HashMismatch
  deriving DecidableEq, Repr

/-- Bytes per partition sector, for the preamble's body-size check. -/
def sectorBytes : Nat := 512

/-- Modelled from the spec: stage 1, `PublicKey` validation — algorithm id
recognized, modulus length matches the algorithm, exponent encoding valid
(spec §4.2.1). -/
def publicKeyValid (k : PublicKey) : Bool :=
  decide (k.algorithm < numAlgorithms) &&
    decide (k.modulus_len = expectedModulusLen k.algorithm) &&
    k.exponent_encoding_valid

/-- Stage 1 as a pipeline step. -/
def PublicKeyCheck (k : PublicKey) : Except VerifyError Unit :=
  if publicKeyValid k then Except.ok () else Except.error VerifyError.InvalidKeyFormat

/-- Modelled from the spec: stage 2, `KeyBlockVerify` (declared in
`src/firmware/linktest/main.c`, implementation absent) — signature-over-self
check under the caller-supplied trusted key, then the key-version floor
(spec §4.2.2). `sigOk key payload signature` abstracts signature validity. -/
def KeyBlockVerify (sigOk : PublicKey → Nat → Nat → Bool)
    (trusted : PublicKey) (kb : KeyBlock) (min_key_version : Nat) :
    Except VerifyError Unit :=
  if sigOk trusted kb.payload kb.signature then
    if kb.key_version < min_key_version then
      Except.error VerifyError.KeyVersionRollback
    else Except.ok ()
  else Except.error VerifyError.BadSignature

/-- Modelled from the spec: stage 3, `VerifyKernelPreamble` (declared in
`src/firmware/linktest/main.c`, implementation absent) — signature-over-self
check under the KeyBlock's embedded key, the kernel-version floor, and the
body-size-fits-partition check (spec §4.2.3). -/
def VerifyKernelPreamble (sigOk : PublicKey → Nat → Nat → Bool)
    (data_key : PublicKey) (p : Preamble) (min_kernel_version : Nat)
    (part_sectors : Nat) : Except VerifyError Unit :=
  if sigOk data_key p.payload p.signature then
    if p.kernel_version < min_kernel_version then
      Except.error VerifyError.KernelVersionRollback
    else if p.body_size ≤ part_sectors * sectorBytes then Except.ok ()
    else Except.error VerifyError.SizeMismatch
  else Except.error VerifyError.BadSignature

/-- Modelled from the spec: stage 4, body verification — the body hash
referenced by the preamble against the partition bytes actually read
(spec §4.2.4). `hashFn` abstracts the hash. -/
def VerifyKernelBody (hashFn : List Nat → Nat) (p : Preamble)
    (body : List Nat) : Except VerifyError Unit :=
  if hashFn body = p.body_hash then Except.ok ()
  else Except.error VerifyError.HashMismatch

/-- One candidate's verification inputs as read from its partition. -/
structure CandidateData where
  keyblock : KeyBlock
  preamble : Preamble
  body : List Nat

/-- Modelled from the spec: the four-stage pipeline in its fixed order, each
stage short-circuiting on failure (spec §4.2). -/
def verifyPipeline (sigOk : PublicKey → Nat → Nat → Bool)
    (hashFn : List Nat → Nat) (trusted : PublicKey) (c : CandidateData)
    (min_key_version min_kernel_version part_sectors : Nat) :
    Except VerifyError Unit :=
  match PublicKeyCheck trusted with
  | Except.error e => Except.error e
  | Except.ok _ =>
      match KeyBlockVerify sigOk trusted c.keyblock min_key_version with
      | Except.error e => Except.error e
      | Except.ok _ =>
          match VerifyKernelPreamble sigOk c.keyblock.data_key c.preamble
              min_kernel_version part_sectors with
          | Except.error e => Except.error e
          | Except.ok _ => VerifyKernelBody hashFn c.preamble c.body

/-! ## Claim C3 -/

/-- C3: the pipeline runs PublicKey validation, KeyBlock verification,
Preamble verification and body verification in that fixed order, each stage
short-circuiting with its own error: an unrecognized/malformed key stops
everything with InvalidKeyFormat; with a valid key, a bad keyblock signature
gives BadSignature and a keyblock key version below the floor gives
KeyVersionRollback; past the keyblock, a bad preamble signature gives
BadSignature, a kernel version below the floor gives KernelVersionRollback,
and a declared body size exceeding the partition gives SizeMismatch; past
the preamble, a body hash mismatch gives HashMismatch, and otherwise the
candidate is accepted. -/
theorem verifyPipeline_stage_order (sigOk : PublicKey → Nat → Nat → Bool)
    (hashFn : List Nat → Nat) (trusted : PublicKey) (c : CandidateData)
    (mkv mnv ps : Nat) :
    (publicKeyValid trusted = false →
      verifyPipeline sigOk hashFn trusted c mkv mnv ps =
        Except.error VerifyError.InvalidKeyFormat) ∧
    (publicKeyValid trusted = true →
      sigOk trusted c.keyblock.payload c.keyblock.signature = false →
      verifyPipeline sigOk hashFn trusted c mkv mnv ps =
        Except.error VerifyError.BadSignature) ∧
    (publicKeyValid trusted = true →
      sigOk trusted c.keyblock.payload c.keyblock.signature = true →
      c.keyblock.key_version < mkv →
      verifyPipeline sigOk hashFn trusted c mkv mnv ps =
        Except.error VerifyError.KeyVersionRollback) ∧
    (publicKeyValid trusted = true →
      sigOk trusted c.keyblock.payload c.keyblock.signature = true →
      mkv ≤ c.keyblock.key_version →
      sigOk c.keyblock.data_key c.preamble.payload c.preamble.signature = false →
      verifyPipeline sigOk hashFn trusted c mkv mnv ps =
        Except.error VerifyError.BadSignature) ∧
    (publicKeyValid trusted = true →
      sigOk trusted c.keyblock.payload c.keyblock.signature = true →
      mkv ≤ c.keyblock.key_version →
      sigOk c.keyblock.data_key c.preamble.payload c.preamble.signature = true →
      c.preamble.kernel_version < mnv →
      verifyPipeline sigOk hashFn trusted c mkv mnv ps =
        Except.error VerifyError.KernelVersionRollback) ∧
    (publicKeyValid trusted = true →
      sigOk trusted c.keyblock.payload c.keyblock.signature = true →
      mkv ≤ c.keyblock.key_version →
      sigOk c.keyblock.data_key c.preamble.payload c.preamble.signature = true →
      mnv ≤ c.preamble.kernel_version →
      ps * sectorBytes < c.preamble.body_size →
      verifyPipeline sigOk hashFn trusted c mkv mnv ps =
        Except.error VerifyError.SizeMismatch) ∧
    (publicKeyValid trusted = true →
      sigOk trusted c.keyblock.payload c.keyblock.signature = true →
      mkv ≤ c.keyblock.key_version →
      sigOk c.keyblock.data_key c.preamble.payload c.preamble.signature = true →
      mnv ≤ c.preamble.kernel_version →
      c.preamble.body_size ≤ ps * sectorBytes →
      hashFn c.body ≠ c.preamble.body_hash →
      verifyPipeline sigOk hashFn trusted c mkv mnv ps =
        Except.error VerifyError.HashMismatch) ∧
    (publicKeyValid trusted = true →
      sigOk trusted c.keyblock.payload c.keyblock.signature = true →
      mkv ≤ c.keyblock.key_version →
      sigOk c.keyblock.data_key c.preamble.payload c.preamble.signature = true →
      mnv ≤ c.preamble.kernel_version →
      c.preamble.body_size ≤ ps * sectorBytes →
      hashFn c.body = c.preamble.body_hash →
      verifyPipeline sigOk hashFn trusted c mkv mnv ps = Except.ok ()) := by
  refine ⟨?_, ?_, ?_, ?_, ?_, ?_, ?_, ?_⟩
  · intro h1
    simp [verifyPipeline, PublicKeyCheck, h1]
  · intro h1 h2
    simp [verifyPipeline, PublicKeyCheck, KeyBlockVerify, h1, h2]
  · intro h1 h2 h3
    simp [verifyPipeline, PublicKeyCheck, KeyBlockVerify, h1, h2, h3]
  · intro h1 h2 h3 h4
    simp [verifyPipeline, PublicKeyCheck, KeyBlockVerify, VerifyKernelPreamble,
      h1, h2, Nat.not_lt_of_le h3, h4]
  · intro h1 h2 h3 h4 h5
    simp [verifyPipeline, PublicKeyCheck, KeyBlockVerify, VerifyKernelPreamble,
      h1, h2, Nat.not_lt_of_le h3, h4, h5]
  · intro h1 h2 h3 h4 h5 h6
    simp [verifyPipeline, PublicKeyCheck, KeyBlockVerify, VerifyKernelPreamble,
      h1, h2, Nat.not_lt_of_le h3, h4, Nat.not_lt_of_le h5,
      Nat.not_le_of_lt h6]
  · intro h1 h2 h3 h4 h5 h6 h7
    simp [verifyPipeline, PublicKeyCheck, KeyBlockVerify, VerifyKernelPreamble,
      VerifyKernelBody, h1, h2, Nat.not_lt_of_le h3, h4, Nat.not_lt_of_le h5,
      h6, h7]
  · intro h1 h2 h3 h4 h5 h6 h7
    simp [verifyPipeline, PublicKeyCheck, KeyBlockVerify, VerifyKernelPreamble,
      VerifyKernelBody, h1, h2, Nat.not_lt_of_le h3, h4, Nat.not_lt_of_le h5,
      h6, h7]

/-- A concrete valid trusted key used by witnesses: algorithm 0, the matching
modulus length, valid exponent encoding, key version 2. -/
def witnessKey : PublicKey := ⟨0, 128, true, 2⟩

/-- Concrete signature relation for witnesses: a signature is the payload
plus the signing key's version. -/
def witnessSigOk (k : PublicKey) (payload sig : Nat) : Bool :=
  decide (sig = payload + k.key_version)

/-- Concrete hash for witnesses: sum of the body bytes. -/
def witnessHash (body : List Nat) : Nat := body.foldl Nat.add 0

/-- Concrete candidate for witnesses: keyblock signed by `witnessKey`
(payload 10, signature 12), preamble signed by the embedded key (version 5,
payload 20, signature 25), body [1, 2, 3] with matching hash 6. -/
def witnessCand : CandidateData :=
  ⟨⟨⟨1, 256, true, 5⟩, 4, 0, 10, 12⟩, ⟨1000, 0, 6, 7, 20, 25⟩, [1, 2, 3]⟩

/-- Witness for C3: on the concrete candidate with floors 3/5 and a 4-sector
partition, every stage passes and the pipeline accepts. -/
theorem verifyPipeline_stage_order_witness :
    verifyPipeline witnessSigOk witnessHash witnessKey witnessCand 3 5 4 =
      Except.ok () := by
  have h := verifyPipeline_stage_order witnessSigOk witnessHash witnessKey
    witnessCand 3 5 4
  exact h.2.2.2.2.2.2.2 (by decide) (by decide) (by decide) (by decide)
    (by decide) (by decide) (by decide)

/-! ## Partition Table Reader (spec §4.1) -/

/-- Modelled from the spec: `PartitionEntry` = {unique id, type tag, starting
sector, sector count, priority (0-15), tries-remaining (0-15),
successful-boot flag} (spec §3). The cgptlib code behind `GptInit` /
`GptNextKernelEntry` / `GptUpdateKernelEntry` is declared in
`src/firmware/linktest/main.c` but not implemented under `src/`. -/
structure PartitionEntry where
  id : Nat
  typeTag : Nat
  start : Nat
  size : Nat
  priority : Nat
  tries : Nat
  successful : Bool
  deriving DecidableEq, Repr

/-- The type tag marking a kernel partition. -/
def kernelTypeTag : Nat := 1

/-- Whether an entry is kernel-tagged. -/
def isKernelEntry (e : PartitionEntry) : Bool :=
  decide (e.typeTag = kernelTypeTag)

/-- Eligibility for candidacy (spec §4.1): kernel-tagged and not exhausted
(an entry with tries-remaining 0 and successful-boot false is skipped). -/
def entryEligible (e : PartitionEntry) : Bool :=
  isKernelEntry e && (decide (e.tries ≠ 0) || e.successful)

/-- Structural well-formedness of a table's entries: the 4-bit priority and
tries fields are in range (spec §3). -/
def wfTable (t : List PartitionEntry) : Prop :=
  ∀ e ∈ t, e.priority ≤ 15 ∧ e.tries ≤ 15

instance (t : List PartitionEntry) : Decidable (wfTable t) := by
  unfold wfTable
  infer_instance

/-- The candidate order of spec §4.1: descending priority, ties broken by
ascending partition index. An indexed entry `a` comes no later than `b` when
`b`'s priority is lower, or priorities tie and `a`'s index is not larger. -/
def candBefore (a b : Nat × PartitionEntry) : Prop :=
  b.2.priority < a.2.priority ∨
    (a.2.priority = b.2.priority ∧ a.1 ≤ b.1)

instance : DecidableRel candBefore := fun a b => by
  unfold candBefore
  infer_instance

/-- The strict version of the candidate order: lower priority, or tied
priority and strictly larger index. -/
def candStrictBefore (a b : Nat × PartitionEntry) : Prop :=
  b.2.priority < a.2.priority ∨
    (a.2.priority = b.2.priority ∧ a.1 < b.1)

instance : IsTotal (Nat × PartitionEntry) candBefore := by
  constructor
  intro a b
  rcases Nat.lt_trichotomy a.2.priority b.2.priority with h | h | h
  · right
    left
    exact h
  · rcases Nat.le_total a.1 b.1 with h1 | h1
    · left
      right
      exact ⟨h, h1⟩
    · right
      right
      exact ⟨h.symm, h1⟩
  · left
    left
    exact h

instance : IsTrans (Nat × PartitionEntry) candBefore := by
  constructor
  intro a b c hab hbc
  rcases hab with h1 | ⟨h1, h1i⟩
  · rcases hbc with h2 | ⟨h2, _⟩
    · left
      exact Nat.lt_trans h2 h1
    · left
      rw [← h2]
      exact h1
  · rcases hbc with h2 | ⟨h2, h2i⟩
    · left
      rw [h1]
      exact h2
    · right
      exact ⟨h1.trans h2, Nat.le_trans h1i h2i⟩

instance : IsAntisymm (Nat × PartitionEntry) candStrictBefore := by
  constructor
  intro a b hab hba
  exfalso
  rcases hab with h1 | ⟨h1, h1i⟩
  · rcases hba with h2 | ⟨h2, _⟩
    · exact Nat.lt_irrefl _ (Nat.lt_trans h1 h2)
    · exact Nat.lt_irrefl _ (h2 ▸ h1)
  · rcases hba with h2 | ⟨h2, h2i⟩
    · exact Nat.lt_irrefl _ (h1 ▸ h2)
    · exact Nat.lt_irrefl _ (Nat.lt_trans h1i h2i)

/-- Modelled from the spec: the full candidate sequence `GptNextKernelEntry`
walks: the kernel-tagged, non-exhausted entries of the table (paired with
their partition index), in descending priority with ties broken by ascending
index. -/
def candSeq (table : List PartitionEntry) : List (Nat × PartitionEntry) :=
  List.insertionSort candBefore
    (table.enum.filter (fun p => entryEligible p.2))

/-- Modelled from the spec: `GptNextKernelEntry` (declared in
`src/firmware/linktest/main.c`, implementation absent): the cursor-indexed
lazy view of the candidate sequence; `none` is `EndOfSequence`. -/
def GptNextKernelEntry (table : List PartitionEntry) (cursor : Nat) :
    Option (Nat × PartitionEntry) :=
  (candSeq table).get? cursor

lemma candSeq_perm (table : List PartitionEntry) :
    (candSeq table).Perm (table.enum.filter (fun p => entryEligible p.2)) :=
  List.perm_insertionSort candBefore _

lemma candSeq_mem (table : List PartitionEntry) (i : Nat) (e : PartitionEntry) :
    (i, e) ∈ candSeq table ↔ table[i]? = some e ∧ entryEligible e = true := by
  rw [(candSeq_perm table).mem_iff, List.mem_filter,
    List.mk_mem_enum_iff_getElem?]

lemma candSeq_pairwise_ne (table : List PartitionEntry) :
    (candSeq table).Pairwise (fun a b => a.1 ≠ b.1) := by
  have henum : table.enum.Pairwise (fun a b => a.1 ≠ b.1) := by
    have hn : (table.enum.map Prod.fst).Nodup := List.nodup_enum_map_fst table
    exact (List.pairwise_map).mp hn
  have hfil : (table.enum.filter (fun p => entryEligible p.2)).Pairwise
      (fun a b => a.1 ≠ b.1) := henum.filter _
  exact ((candSeq_perm table).symm.pairwise_iff
    (fun hxy => Ne.symm hxy)).mp hfil

lemma candSeq_sorted (table : List PartitionEntry) :
    (candSeq table).Pairwise candStrictBefore := by
  have hs : (candSeq table).Pairwise candBefore :=
    List.sorted_insertionSort candBefore _
  refine ((hs.and (candSeq_pairwise_ne table)).imp ?_)
  intro a b hab
  rcases hab with ⟨h1 | ⟨h1, h1i⟩, hne⟩
  · left
    exact h1
  · right
    exact ⟨h1, Nat.lt_of_le_of_ne h1i hne⟩

lemma candStrictBefore_ne (a b : Nat × PartitionEntry)
    (h : candStrictBefore a b) : a ≠ b := by
  intro he
  subst he
  rcases h with h1 | ⟨_, h1⟩
  · exact Nat.lt_irrefl _ h1
  · exact Nat.lt_irrefl _ h1

lemma strictSorted_unique (l1 l2 : List (Nat × PartitionEntry))
    (h1 : l1.Pairwise candStrictBefore) (h2 : l2.Pairwise candStrictBefore)
    (hm : ∀ p, p ∈ l1 ↔ p ∈ l2) : l1 = l2 := by
  have hn1 : l1.Nodup := h1.imp (fun h => candStrictBefore_ne _ _ h)
  have hn2 : l2.Nodup := h2.imp (fun h => candStrictBefore_ne _ _ h)
  have hp : l1.Perm l2 := (List.perm_ext_iff_of_nodup hn1 hn2).mpr hm
  exact List.eq_of_perm_of_sorted hp h1 h2

/-! ## Claim C4 -/

/-- C4: for every well-formed table, the candidate walk of
`GptNextKernelEntry` enumerates exactly the kernel-tagged entries that are
not exhausted (tries 0 and successful-boot false), in non-increasing
priority order with ties broken by strictly ascending partition index; the
cursor view reads off that sequence; and the sequence is the unique one with
that membership and order, so restarting the scan on an unmodified table
reproduces it identically. -/
theorem gptNextKernelEntry_spec (table : List PartitionEntry)
    (hwf : wfTable table) :
    (∀ i e, (i, e) ∈ candSeq table ↔
      table[i]? = some e ∧ isKernelEntry e = true ∧
        (e.tries ≠ 0 ∨ e.successful = true)) ∧
    (candSeq table).Pairwise candStrictBefore ∧
    (∀ c, GptNextKernelEntry table c = (candSeq table).get? c) ∧
    (∀ l : List (Nat × PartitionEntry),
      (∀ p, p ∈ l ↔ p ∈ candSeq table) →
      l.Pairwise candStrictBefore → l = candSeq table) := by
  refine ⟨?_, candSeq_sorted table, fun _ => rfl, ?_⟩
  · intro i e
    rw [candSeq_mem]
    constructor
    · rintro ⟨hg, he⟩
      refine ⟨hg, ?_⟩
      unfold entryEligible at he
      rcases Bool.and_eq_true_iff.mp he with ⟨hk, ho⟩
      refine ⟨hk, ?_⟩
      rcases Bool.or_eq_true_iff.mp ho with h | h
      · left
        exact of_decide_eq_true h
      · right
        exact h
    · rintro ⟨hg, hk, ho⟩
      refine ⟨hg, ?_⟩
      unfold entryEligible
      rw [Bool.and_eq_true_iff, Bool.or_eq_true_iff]
      refine ⟨hk, ?_⟩
      rcases ho with h | h
      · left
        exact decide_eq_true h
      · right
        exact h
  · intro l hm hs
    exact strictSorted_unique l (candSeq table) hs (candSeq_sorted table) hm

/-- Witness for C4 on a concrete well-formed table: two kernel entries with
priorities 2 and 4 plus one exhausted and one non-kernel entry; the scan
yields the priority-4 entry (index 1) then the priority-2 entry (index 0). -/
theorem gptNextKernelEntry_spec_witness :
    (1, (⟨11, 1, 8, 8, 4, 2, false⟩ : PartitionEntry)) ∈ candSeq
      [⟨10, 1, 0, 8, 2, 1, false⟩, ⟨11, 1, 8, 8, 4, 2, false⟩,
       ⟨12, 1, 16, 8, 9, 0, false⟩, ⟨13, 0, 24, 8, 9, 3, false⟩] :=
  ((gptNextKernelEntry_spec
    [⟨10, 1, 0, 8, 2, 1, false⟩, ⟨11, 1, 8, 8, 4, 2, false⟩,
     ⟨12, 1, 16, 8, 9, 0, false⟩, ⟨13, 0, 24, 8, 9, 3, false⟩]
    (by decide)).1 1 ⟨11, 1, 8, 8, 4, 2, false⟩).mpr
    ⟨by decide, by decide, Or.inl (by decide)⟩

/-! ## Kernel Selector (spec §4.4) -/

/-- The verification context the Selector threads through one boot attempt:
the signature relation, the hash, the firmware's trusted key, and the disk
read that yields each partition's keyblock/preamble/body. -/
structure VerifyCtx where
  sigOk : PublicKey → Nat → Nat → Bool
  hashFn : List Nat → Nat
  trusted : PublicKey
  disk : Nat → CandidateData

/-- The two rollback floors the pipeline is gated by (spec §4.2/§4.3). -/
structure Floors where
  min_key_version : Nat
  min_kernel_version : Nat
  deriving DecidableEq, Repr

/-- Modelled from the spec: the stored minimum combines the key-version and
kernel-version floors in one counter value (high and low half). -/
def floorsOf (rb : RollbackState) : Floors :=
  ⟨rb.stored_minimum / 65536, rb.stored_minimum % 65536⟩

/-- One candidate's full verification: the four-stage pipeline on the data
read from partition `i`, gated by the floors, with the entry's sector count
bounding the body size. -/
def verifyCandidate (ctx : VerifyCtx) (fl : Floors) (i : Nat)
    (e : PartitionEntry) : Except VerifyError Unit :=
  verifyPipeline ctx.sigOk ctx.hashFn ctx.trusted (ctx.disk i)
    fl.min_key_version fl.min_kernel_version e.size

/-- The Selector's per-attempt entry mutation: consume one try. -/
def decrementTries (e : PartitionEntry) : PartitionEntry :=
  { e with tries := e.tries - 1 }

/-- The Selector's on-accept entry mutation: record the successful boot. -/
def markSuccessful (e : PartitionEntry) : PartitionEntry :=
  { e with successful := true }

/-- Modelled from the spec: `GptUpdateKernelEntry` (declared in
`src/firmware/linktest/main.c`, implementation absent): in-place mutation of
the entry at one partition index (spec §4.1). -/
def GptUpdateKernelEntry : List PartitionEntry → Nat →
    (PartitionEntry → PartitionEntry) → List PartitionEntry
  | [], _, _ => []
  | e :: es, 0, f => f e :: es
  | e :: es, Nat.succ n, f => e :: GptUpdateKernelEntry es n f

/-- The Selector's final verdict. -/
inductive SelectorResult where
  | Selected (idx : Nat) (e : PartitionEntry)
  | FatalNoValidKernel
  deriving DecidableEq, Repr

/-- What one boot attempt produces: the verdict, the updated table, and the
trace of candidates actually tried, in order. -/
structure SelectorOutcome where
  result : SelectorResult
  table : List PartitionEntry
  tried : List (Nat × PartitionEntry)

/-- Modelled from the spec: the Selector's scan (spec §4.4). For each
candidate in priority order: consume a try (before verification is
attempted), verify; on success mark the successful boot and stop; on
failure move to the next candidate. -/
def selectLoop (ctx : VerifyCtx) (fl : Floors) :
    List (Nat × PartitionEntry) → List PartitionEntry →
    List (Nat × PartitionEntry) → SelectorOutcome
  | [], table, tried => ⟨SelectorResult.FatalNoValidKernel, table, tried⟩
  | (i, e) :: rest, table, tried =>
      match verifyCandidate ctx fl i e with
      | Except.ok _ =>
          ⟨SelectorResult.Selected i e,
            GptUpdateKernelEntry
              (GptUpdateKernelEntry table i decrementTries) i markSuccessful,
            tried ++ [(i, e)]⟩
      | Except.error _ =>
          selectLoop ctx fl rest
            (GptUpdateKernelEntry table i decrementTries) (tried ++ [(i, e)])

/-- Modelled from the spec: `LoadKernel` / `VbSelectAndLoadKernel` (declared
in `src/firmware/linktest/main.c`, implementation absent): establish the
rollback floor first — if the module cannot be read, no candidate can be
trusted and the boot is fatal (spec §7) — then scan the candidates. -/
def LoadKernel (ctx : VerifyCtx) (m : SecurityModule)
    (table : List PartitionEntry) : SelectorOutcome :=
  match RollbackKernelRead m with
  | Except.error _ => ⟨SelectorResult.FatalNoValidKernel, table, []⟩
  | Except.ok rb => selectLoop ctx (floorsOf rb) (candSeq table) table []

/-- Applying the consume-one-try update for each listed candidate in order. -/
def foldDecr (l : List (Nat × PartitionEntry)) (t : List PartitionEntry) :
    List PartitionEntry :=
  l.foldl (fun t p => GptUpdateKernelEntry t p.1 decrementTries) t

lemma selectLoop_cons_ok (ctx : VerifyCtx) (fl : Floors) (i : Nat)
    (e : PartitionEntry) (rest : List (Nat × PartitionEntry))
    (table : List PartitionEntry) (acc : List (Nat × PartitionEntry))
    (hv : verifyCandidate ctx fl i e = Except.ok ()) :
    selectLoop ctx fl ((i, e) :: rest) table acc =
      ⟨SelectorResult.Selected i e,
        GptUpdateKernelEntry
          (GptUpdateKernelEntry table i decrementTries) i markSuccessful,
        acc ++ [(i, e)]⟩ := by
  simp only [selectLoop]
  rw [hv]

lemma selectLoop_cons_error (ctx : VerifyCtx) (fl : Floors) (i : Nat)
    (e : PartitionEntry) (rest : List (Nat × PartitionEntry))
    (table : List PartitionEntry) (acc : List (Nat × PartitionEntry))
    (err : VerifyError)
    (hv : verifyCandidate ctx fl i e = Except.error err) :
    selectLoop ctx fl ((i, e) :: rest) table acc =
      selectLoop ctx fl rest
        (GptUpdateKernelEntry table i decrementTries) (acc ++ [(i, e)]) := by
  simp only [selectLoop]
  rw [hv]

lemma selectLoop_char (ctx : VerifyCtx) (fl : Floors) :
    ∀ (cs : List (Nat × PartitionEntry)) (table : List PartitionEntry)
      (acc : List (Nat × PartitionEntry)),
    ((selectLoop ctx fl cs table acc).result =
        SelectorResult.FatalNoValidKernel →
      (selectLoop ctx fl cs table acc).tried = acc ++ cs ∧
      (∀ p ∈ cs, verifyCandidate ctx fl p.1 p.2 ≠ Except.ok ()) ∧
      (selectLoop ctx fl cs table acc).table = foldDecr cs table) ∧
    (∀ i e, (selectLoop ctx fl cs table acc).result =
        SelectorResult.Selected i e →
      ∃ pre post, cs = pre ++ (i, e) :: post ∧
        (selectLoop ctx fl cs table acc).tried = acc ++ pre ++ [(i, e)] ∧
        (∀ p ∈ pre, verifyCandidate ctx fl p.1 p.2 ≠ Except.ok ()) ∧
        verifyCandidate ctx fl i e = Except.ok () ∧
        (selectLoop ctx fl cs table acc).table =
          GptUpdateKernelEntry (foldDecr (pre ++ [(i, e)]) table) i
            markSuccessful) := by
  intro cs
  induction cs with
  | nil =>
      intro table acc
      constructor
      · intro _
        exact ⟨by simp [selectLoop], by simp, rfl⟩
      · intro i e hres
        exact SelectorResult.noConfusion hres
  | cons p rest ih =>
      obtain ⟨i, e⟩ := p
      intro table acc
      cases hv : verifyCandidate ctx fl i e with
      | ok u =>
          cases u
          rw [selectLoop_cons_ok ctx fl i e rest table acc hv]
          constructor
          · intro hres
            exact SelectorResult.noConfusion hres
          · intro i' e' hres
            injection hres with h1 h2
            subst h1
            subst h2
            refine ⟨[], rest, rfl, by simp, ?_, hv, rfl⟩
            intro p hp
            exact absurd hp (List.not_mem_nil p)
      | error err =>
          rw [selectLoop_cons_error ctx fl i e rest table acc err hv]
          obtain ⟨ihF, ihS⟩ :=
            ih (GptUpdateKernelEntry table i decrementTries) (acc ++ [(i, e)])
          constructor
          · intro hres
            obtain ⟨ht, hall, htab⟩ := ihF hres
            refine ⟨by rw [ht]; simp, ?_, by rw [htab]; rfl⟩
            intro p hp
            rcases List.mem_cons.mp hp with h | h
            · subst h
              show verifyCandidate ctx fl i e ≠ Except.ok ()
              rw [hv]
              exact fun hc => Except.noConfusion hc
            · exact hall p h
          · intro i' e' hres
            obtain ⟨pre', post', hcs, ht, hall, hok, htab⟩ := ihS i' e' hres
            refine ⟨(i, e) :: pre', post', by rw [hcs]; rfl, by rw [ht]; simp,
              ?_, hok, by rw [htab]; rfl⟩
            intro p hp
            rcases List.mem_cons.mp hp with h | h
            · subst h
              show verifyCandidate ctx fl i e ≠ Except.ok ()
              rw [hv]
              exact fun hc => Except.noConfusion hc
            · exact hall p h

/-! ## Claim C1 -/

/-- C1: the Selector fails closed. A candidate is Selected only if the
rollback floor was read successfully, the candidate is in the scan sequence,
and its four-stage verification succeeded against that floor; a module read
error (ModuleUnavailable/ModuleCorrupt) forces FatalNoValidKernel no matter
what candidates exist; and if every candidate's verification fails, the
result is FatalNoValidKernel. -/
theorem loadKernel_fails_closed (ctx : VerifyCtx) (m : SecurityModule)
    (table : List PartitionEntry) :
    (∀ i e, (LoadKernel ctx m table).result = SelectorResult.Selected i e →
      ∃ rb, RollbackKernelRead m = Except.ok rb ∧
        (i, e) ∈ candSeq table ∧
        verifyCandidate ctx (floorsOf rb) i e = Except.ok ()) ∧
    (∀ err, RollbackKernelRead m = Except.error err →
      (LoadKernel ctx m table).result = SelectorResult.FatalNoValidKernel) ∧
    (∀ rb, RollbackKernelRead m = Except.ok rb →
      (∀ p ∈ candSeq table,
        verifyCandidate ctx (floorsOf rb) p.1 p.2 ≠ Except.ok ()) →
      (LoadKernel ctx m table).result = SelectorResult.FatalNoValidKernel) := by
  refine ⟨?_, ?_, ?_⟩
  · intro i e hres
    cases hm : RollbackKernelRead m with
    | error err =>
        unfold LoadKernel at hres
        rw [hm] at hres
        exact SelectorResult.noConfusion hres
    | ok rb =>
        refine ⟨rb, rfl, ?_⟩
        unfold LoadKernel at hres
        rw [hm] at hres
        obtain ⟨pre, post, hcs, _, _, hok, _⟩ :=
          ((selectLoop_char ctx (floorsOf rb) (candSeq table) table []).2) i e
            hres
        constructor
        · rw [hcs]
          exact List.mem_append.mpr (Or.inr (List.mem_cons_self _ _))
        · exact hok
  · intro err hm
    unfold LoadKernel
    rw [hm]
  · intro rb hm hall
    unfold LoadKernel
    rw [hm]
    cases hres : (selectLoop ctx (floorsOf rb) (candSeq table) table []).result
      with
    | Selected i e =>
        obtain ⟨pre, post, hcs, _, _, hok, _⟩ :=
          ((selectLoop_char ctx (floorsOf rb) (candSeq table) table []).2) i e
            hres
        exact absurd hok (hall (i, e) (by
          rw [hcs]
          exact List.mem_append.mpr (Or.inr (List.mem_cons_self _ _))))
    | FatalNoValidKernel => rfl

/-- Witness for C1: with the security module timing out, the Selector is
fatal even on a table whose candidate would verify (the concrete candidate
of the C3 witness). -/
theorem loadKernel_fails_closed_witness :
    (LoadKernel ⟨witnessSigOk, witnessHash, witnessKey, fun _ => witnessCand⟩
      ⟨ModuleStatus.Timeout, ⟨0, 0, false⟩⟩
      [⟨10, 1, 0, 8, 2, 3, false⟩]).result =
      SelectorResult.FatalNoValidKernel :=
  (loadKernel_fails_closed
    ⟨witnessSigOk, witnessHash, witnessKey, fun _ => witnessCand⟩
    ⟨ModuleStatus.Timeout, ⟨0, 0, false⟩⟩
    [⟨10, 1, 0, 8, 2, 3, false⟩]).2.1 RbError.ModuleUnavailable rfl

/-! ## Claim C7 -/

/-- C7: accounting of the Selector's attempts. When a candidate is Selected,
the tried trace is exactly the rejected prefix followed by the winner —
no later candidate is examined — the final table is the input table with one
try consumed for every tried candidate (consumed whether or not its
verification succeeded, i.e. before the verification outcome), and only the
winner, whose verification fully succeeded, is marked successful. When the
scan is fatal, every candidate was tried and each consumed a try, and no
successful-boot flag is set. -/
theorem selector_try_accounting (ctx : VerifyCtx) (m : SecurityModule)
    (table : List PartitionEntry) (rb : RollbackState)
    (hrb : RollbackKernelRead m = Except.ok rb) :
    (∀ i e, (LoadKernel ctx m table).result = SelectorResult.Selected i e →
      ∃ pre post, candSeq table = pre ++ (i, e) :: post ∧
        (LoadKernel ctx m table).tried = pre ++ [(i, e)] ∧
        (∀ p ∈ pre, verifyCandidate ctx (floorsOf rb) p.1 p.2 ≠ Except.ok ()) ∧
        verifyCandidate ctx (floorsOf rb) i e = Except.ok () ∧
        (LoadKernel ctx m table).table =
          GptUpdateKernelEntry (foldDecr (pre ++ [(i, e)]) table) i
            markSuccessful) ∧
    ((LoadKernel ctx m table).result = SelectorResult.FatalNoValidKernel →
      (LoadKernel ctx m table).tried = candSeq table ∧
      (LoadKernel ctx m table).table = foldDecr (candSeq table) table) := by
  have hload : LoadKernel ctx m table =
      selectLoop ctx (floorsOf rb) (candSeq table) table [] := by
    unfold LoadKernel
    rw [hrb]
  obtain ⟨hF, hS⟩ := selectLoop_char ctx (floorsOf rb) (candSeq table) table []
  constructor
  · intro i e hres
    rw [hload] at hres ⊢
    obtain ⟨pre, post, hcs, ht, hall, hok, htab⟩ := hS i e hres
    exact ⟨pre, post, hcs, by rw [ht]; simp, hall, hok, htab⟩
  · intro hres
    rw [hload] at hres ⊢
    obtain ⟨ht, _, htab⟩ := hF hres
    exact ⟨by rw [ht]; simp, htab⟩

/-- Witness for C7: on the single-candidate table whose candidate verifies
(the C3 witness data, floors 0), the Selector selects it with one consumed
try and the successful flag set. -/
theorem selector_try_accounting_witness :
    (LoadKernel ⟨witnessSigOk, witnessHash, witnessKey, fun _ => witnessCand⟩
      ⟨ModuleStatus.Ok, ⟨0, 0, false⟩⟩ []).tried = candSeq [] ∧
    (LoadKernel ⟨witnessSigOk, witnessHash, witnessKey, fun _ => witnessCand⟩
      ⟨ModuleStatus.Ok, ⟨0, 0, false⟩⟩ []).table = foldDecr (candSeq []) [] :=
  (selector_try_accounting
    ⟨witnessSigOk, witnessHash, witnessKey, fun _ => witnessCand⟩
    ⟨ModuleStatus.Ok, ⟨0, 0, false⟩⟩ [] ⟨0, 0, false⟩ rfl).2 rfl
